import Mathlib

/-!
# FAQ Extractor — shallow embedding and verification

Embedding of the spreadsheet-to-structured-data extraction logic of
`scripts/parse_excel_faq.py` (`parse_faq_excel`, the "main" variant) and
`scripts/parse_excel_faq_cbre.py` (`parse_cbre_faq`, the "CBRE" variant),
together with the JSON persistence shape used by `main` /
`generate_sql_inserts.py`.

A spreadsheet cell read through pandas with `header=None` is either absent
(NaN), a text value, or a numeric value.  The extractors only access
columns 0, 1 and 2 of each row, so a row is modelled by its first three
cells.  Python-semantics helpers (`str()`, `.strip()`, `.lower()`,
`.isdigit()`, `int()`, `in`-containment, dict insertion order) are
modelled explicitly below.  Two error paths of the source are modelled:
the main variant calls `row[1].strip()` without a `str()` conversion,
which raises `AttributeError` on a numeric cell; and both variants call
`int(row[0])` on any row whose trimmed column-0 text passes Python's
`isdigit()`, which raises `ValueError` when that text contains a
digit-like character that is not a decimal digit (such as `'²'`:
`str.isdigit` accepts it, `int` rejects it).  Both embeddings therefore
return `Except String _`.
-/

/-- A spreadsheet cell as seen through `pandas.read_excel(..., header=None)`:
absent (NaN), a text value, or a numeric value. -/
inductive Cell where
  | blank : Cell
  | str : String → Cell
  | num : Int → Cell
deriving DecidableEq, Repr

/-- One grid row; the extractors read only columns 0, 1 and 2
(`row[0]`, `row[1]`, `row[2]`). -/
structure Row where
  c0 : Cell
  c1 : Cell
  c2 : Cell
deriving DecidableEq, Repr

/-- Model of `pd.notna(cell)`: true unless the cell is absent/NaN. -/
def notna : Cell → Bool
  | .blank => false
  | _ => true

/-- Python `str(cell)` for a cell (NaN prints as "nan"; integers print in
decimal as in Python). -/
def pyStr : Cell → String
  | .blank => "nan"
  | .str s => s
  | .num n => toString n

/-- Python `s.lower()`: lower-case every character. -/
def pyLower (s : String) : String := ⟨s.data.map Char.toLower⟩

/-- Drop leading whitespace characters from a character list. -/
def dropWhiteL : List Char → List Char
  | [] => []
  | c :: cs => if c.isWhitespace then dropWhiteL cs else c :: cs

/-- Trim whitespace from both ends of a character list. -/
def trimChars (l : List Char) : List Char :=
  (dropWhiteL ((dropWhiteL l).reverse)).reverse

/-- Python `s.strip()`: remove leading and trailing whitespace. -/
def pyStrip (s : String) : String := ⟨trimChars s.data⟩

/-- Digit-like characters accepted by Python `str.isdigit()` but rejected
by `int()` (Unicode `Numeric_Type=Digit` outside category `Nd`),
modelled by the superscript and subscript digit code points — `'²'` is
the canonical example. -/
def pyNonDecDigitChar (c : Char) : Bool :=
  ['¹', '²', '³', '⁰', '⁴', '⁵', '⁶', '⁷', '⁸', '⁹',
   '₀', '₁', '₂', '₃', '₄', '₅', '₆', '₇', '₈', '₉'].contains c

/-- A character accepted by Python `str.isdigit()`: a decimal digit
(category `Nd`, modelled by ASCII `0`–`9`) or a non-decimal digit-like
character. -/
def pyIsDigitChar (c : Char) : Bool :=
  c.isDigit || pyNonDecDigitChar c

/-- Python `s.isdigit()`: non-empty and every character digit-like. -/
def pyIsDigit (s : String) : Bool :=
  !s.data.isEmpty && s.data.all pyIsDigitChar

/-- The strings on which `int` also succeeds under the `isdigit` guard:
non-empty and every character a decimal digit.  A string that passes
`isdigit` but not this test makes `int()` raise `ValueError`. -/
def pyIsDecDigit (s : String) : Bool :=
  !s.data.isEmpty && s.data.all Char.isDigit

/-- Decimal value of a digit-character list. -/
def decimalOfDigits (l : List Char) : Nat :=
  l.foldl (fun a c => a * 10 + (c.toNat - 48)) 0

/-- Python `int(cell)` under the guard `str(cell).strip().isdigit()`:
a numeric cell is its value, a text cell is the decimal reading of its
trimmed digits (Python `int` itself tolerates surrounding whitespace). -/
def pyInt : Cell → Int
  | .blank => 0
  | .str s => Int.ofNat (decimalOfDigits (trimChars s.data))
  | .num n => n

/-- Python `cell == "Answer"` (line 15 of `parse_excel_faq.py`): only a
text cell can compare equal to a string; comparing a number or NaN to a
string yields `False`, not an error. -/
def cellEqAnswer : Cell → Bool
  | .str s => s == "Answer"
  | _ => false

/-- Python `needle in hay` on lists of characters: `needle` occurs as a
contiguous run of `hay`. -/
def startsWithL : List Char → List Char → Bool
  | _, [] => true
  | [], _ :: _ => false
  | h :: hs, n :: ns => h == n && startsWithL hs ns

/-- Auxiliary scan for substring containment. -/
def hasRunL : List Char → List Char → Bool
  | [], ns => ns.isEmpty
  | h :: hs, ns => startsWithL (h :: hs) ns || hasRunL hs ns

/-- Python `needle in hay` for strings (substring containment). -/
def strContainsSub (hay needle : String) : Bool :=
  hasRunL hay.toList needle.toList

/-- A question/answer record: `{"number": ..., "question": ..., "answer": ...}`. -/
structure Record where
  number : Int
  question : String
  answer : String
deriving DecidableEq, Repr

/-- The extraction result: a Python dict from section name to record list,
modelled as an insertion-ordered association list. -/
abbrev FaqData := List (String × List Record)

/-- Python `d[k] = v` on a dict: replace the value at an existing key in
place (keeping its position), else append the new key at the end. -/
def dictSet (d : FaqData) (k : String) (v : List Record) : FaqData :=
  match d with
  | [] => [(k, v)]
  | (k', v') :: rest =>
      if k' = k then (k, v) :: rest else (k', v') :: dictSet rest k v

/-- Python `d[k]` lookup. -/
def dictGet (d : FaqData) (k : String) : Option (List Record) :=
  match d with
  | [] => none
  | (k', v') :: rest => if k' = k then some v' else dictGet rest k

/-- Python `d[k].append(r)`: extend the list stored at `k` in place.  The
extractors only reach this with `k` present in the dict (a section is
always opened before it is appended to). -/
def dictAppendKey (d : FaqData) (k : String) (r : Record) : FaqData :=
  match d with
  | [] => []
  | (k', v') :: rest =>
      if k' = k then (k', v' ++ [r]) :: rest
      else (k', v') :: dictAppendKey rest k r

/-- Extractor state: the dict under construction and `current_section`. -/
structure ExtState where
  faq_data : FaqData
  current_section : Option String
deriving DecidableEq, Repr

/-- Section-name resolution of `parse_excel_faq.py` (lines 20–29):
case-insensitive exact equality against known labels, falling back to the
raw (trimmed) label. -/
def resolveMain (section_name : String) : String :=
  if pyLower section_name == "coverage" then "Benefit Coverage"
  else if pyLower section_name == "letter of guarantee" then "Letter of Guarantee (LOG)"
  else if pyLower section_name == "system" then "Portal Matters"
  else if pyLower section_name == "claims" || pyLower section_name == "status" then
    "Claims Status"
  else section_name

/-- Section-name resolution of `parse_excel_faq_cbre.py` (lines 21–30):
case-sensitive substring containment in priority order, falling back to
the raw (trimmed) label. -/
def resolveCbre (section_name : String) : String :=
  if strContainsSub section_name "Coverage" then "Benefit Coverage"
  else if strContainsSub section_name "Letter of Guarantee" then "Letter of Guarantee (LOG)"
  else if strContainsSub section_name "System" then "Portal Matters"
  else if strContainsSub section_name "Status" then "Claims Status"
  else section_name

/-- Header-row test of `parse_excel_faq.py` line 15:
`pd.notna(row[2]) and row[2] == "Answer"` (exact, untrimmed comparison). -/
def isHeaderMain (r : Row) : Bool :=
  notna r.c2 && cellEqAnswer r.c2

/-- Header-row test of `parse_excel_faq_cbre.py` line 15:
`pd.notna(row[2]) and str(row[2]).strip() == 'Answer'` (trimmed). -/
def isHeaderCbre (r : Row) : Bool :=
  notna r.c2 && (pyStrip (pyStr r.c2) == "Answer")

/-- Data-row guard as the source writes it, shared by both variants
(line 35 / 36): `pd.notna(row[0]) and str(row[0]).strip().isdigit()`,
with Python's `isdigit`. -/
def isDigitLedPy (r : Row) : Bool :=
  notna r.c0 && pyIsDigit (pyStrip (pyStr r.c0))

/-- The guarded rows on which `int(row[0])` (line 36 / 37) also
succeeds: the trimmed column-0 text is all decimal digits.  A row that is
digit-led by `isdigit` but not by this test raises `ValueError` at
`int(row[0])`. -/
def isDigitLed (r : Row) : Bool :=
  notna r.c0 && pyIsDecDigit (pyStrip (pyStr r.c0))

/-- Field extraction of a data row (lines 37–38):
`str(row[i]).strip() if pd.notna(row[i]) else ""`. -/
def fieldText (c : Cell) : String :=
  if notna c then pyStrip (pyStr c) else ""

/-- Python truthiness of `current_section` (line 40): `None` and the empty
string are falsy. -/
def sectionTruthy : Option String → Bool
  | none => false
  | some s => !s.data.isEmpty

/-- One loop iteration of `parse_faq_excel` (lines 13–46).  The header
branch evaluates `row[1].strip()` on the raw cell, which raises
`AttributeError` when the cell is numeric; the data branch evaluates
`int(row[0])` before anything else, which raises `ValueError` when the
trimmed column-0 text passed `isdigit` with a non-decimal digit
character. -/
def procRow (st : ExtState) (r : Row) : Except String ExtState :=
  if isHeaderMain r then
    if notna r.c1 then
      match r.c1 with
      | .str s =>
          let name := resolveMain (pyStrip s)
          .ok ⟨dictSet st.faq_data name [], some name⟩
      | _ => .error "AttributeError"
    else .ok st
  else if isDigitLedPy r then
    if isDigitLed r then
      let number := pyInt r.c0
      let question := fieldText r.c1
      let answer := fieldText r.c2
      if sectionTruthy st.current_section && !question.data.isEmpty then
        match st.current_section with
        | some cs => .ok ⟨dictAppendKey st.faq_data cs ⟨number, question, answer⟩, some cs⟩
        | none => .ok st
      else .ok st
    else .error "ValueError"
  else .ok st

/-- The row loop of `parse_faq_excel`, threading the state and stopping at
the first raised error. -/
def runRows : ExtState → List Row → Except String ExtState
  | st, [] => .ok st
  | st, r :: rs =>
      match procRow st r with
      | .ok st' => runRows st' rs
      | .error e => .error e

/-- Embedding of `parse_faq_excel` of `scripts/parse_excel_faq.py` on an
in-memory grid: run the scan from the empty dict and no current section
and return the dict (or the raised error). -/
def parse_faq_excel (g : List Row) : Except String FaqData :=
  match runRows ⟨[], none⟩ g with
  | .ok st => .ok st.faq_data
  | .error e => .error e

/-- One loop iteration of `parse_cbre_faq` (lines 13–47).  Every cell is
converted with `str()` before use, so the header branch never raises; the
data branch still evaluates `int(row[0])` (line 37), which raises
`ValueError` on a non-decimal digit-led column 0. -/
def procRowCbre (st : ExtState) (r : Row) : Except String ExtState :=
  if isHeaderCbre r then
    if notna r.c1 then
      let name := resolveCbre (pyStrip (pyStr r.c1))
      .ok ⟨dictSet st.faq_data name [], some name⟩
    else .ok st
  else if isDigitLedPy r then
    if isDigitLed r then
      let number := pyInt r.c0
      let question := fieldText r.c1
      let answer := fieldText r.c2
      if sectionTruthy st.current_section && !question.data.isEmpty then
        match st.current_section with
        | some cs => .ok ⟨dictAppendKey st.faq_data cs ⟨number, question, answer⟩, some cs⟩
        | none => .ok st
      else .ok st
    else .error "ValueError"
  else .ok st

/-- The row loop of `parse_cbre_faq`, threading the state and stopping at
the first raised error. -/
def runRowsCbre : ExtState → List Row → Except String ExtState
  | st, [] => .ok st
  | st, r :: rs =>
      match procRowCbre st r with
      | .ok st' => runRowsCbre st' rs
      | .error e => .error e

/-- Embedding of `parse_cbre_faq` of `scripts/parse_excel_faq_cbre.py` on
an in-memory grid. -/
def parse_cbre_faq (g : List Row) : Except String FaqData :=
  match runRowsCbre ⟨[], none⟩ g with
  | .ok st => .ok st.faq_data
  | .error e => .error e

/-! ## Shared dictionary lemmas -/

/-- Setting a key and reading it back yields the value just stored. -/
theorem dictGet_dictSet_self (d : FaqData) (k : String) (v : List Record) :
    dictGet (dictSet d k v) k = some v := by
  induction d with
  | nil => simp [dictSet, dictGet]
  | cons p rest ih =>
      obtain ⟨k', v'⟩ := p
      by_cases h : k' = k <;> simp [dictSet, dictGet, h, ih]

/-- Appending to the list stored at a key updates exactly that list. -/
theorem dictGet_dictAppendKey_self (d : FaqData) (k : String) (r : Record)
    (old : List Record) (h : dictGet d k = some old) :
    dictGet (dictAppendKey d k r) k = some (old ++ [r]) := by
  induction d with
  | nil => simp [dictGet] at h
  | cons p rest ih =>
      obtain ⟨k', v'⟩ := p
      by_cases hk : k' = k
      · subst hk
        simp [dictGet] at h
        simp [dictAppendKey, dictGet, h]
      · simp [dictGet, hk] at h
        simp [dictAppendKey, dictGet, hk, ih h]

/-- Decimal digit-led rows pass the source's `isdigit` guard (decimal
digits are digit-like). -/
theorem isDigitLedPy_of_isDigitLed (r : Row) (h : isDigitLed r = true) :
    isDigitLedPy r = true := by
  simp only [isDigitLed, pyIsDecDigit, Bool.and_eq_true] at h
  obtain ⟨h1, h3, h4⟩ := h
  simp only [isDigitLedPy, pyIsDigit, Bool.and_eq_true]
  refine ⟨h1, h3, ?_⟩
  rw [List.all_eq_true] at h4 ⊢
  intro c hc
  simp [pyIsDigitChar, h4 c hc]

/-! ## C1 — section-name resolution -/

/-- C1 (counterexample): as stated, the claim fails on the code.  The CBRE
variant resolves by substring containment, so the raw label `"Claims"`
(which contains none of the four keywords) resolves verbatim to
`"Claims"`, not to `"Claims Status"`; and the main variant resolves by
case-insensitive exact equality, so the raw label `"Portal / System"`
resolves verbatim to `"Portal / System"`, not to `"Portal Matters"`.  No
single variant satisfies all of the claim's concrete examples. -/
theorem C1_resolution_counterexample :
    parse_cbre_faq [⟨Cell.blank, Cell.str "Claims", Cell.str "Answer"⟩]
        = Except.ok [("Claims", [])] ∧
    resolveCbre "Claims" ≠ "Claims Status" ∧
    parse_faq_excel [⟨Cell.blank, Cell.str "Portal / System", Cell.str "Answer"⟩]
        = Except.ok [("Portal / System", [])] ∧
    resolveMain "Portal / System" ≠ "Portal Matters" := by
  refine ⟨rfl, by decide, rfl, by decide⟩

/-- C1 (amended): every header row resolves its raw (trimmed) column-1
label through the variant's resolver and opens that section.  The CBRE
variant uses case-sensitive keyword containment in priority order
(Coverage, Letter of Guarantee, System, Status) with a verbatim fallback:
there `"Portal / System"` resolves to `"Portal Matters"` and
`"Miscellaneous"` resolves verbatim, but `"Claims"` resolves verbatim to
`"Claims"`.  The main variant uses case-insensitive exact equality
(coverage / letter of guarantee / system / claims / status): there
`"Claims"` resolves to `"Claims Status"` and `"Miscellaneous"` resolves
verbatim, but `"Portal / System"` resolves verbatim. -/
theorem C1_resolution_amended :
    (∀ s : String, parse_cbre_faq [⟨Cell.blank, Cell.str s, Cell.str "Answer"⟩]
        = Except.ok [(resolveCbre (pyStrip s), [])]) ∧
    (∀ s : String, parse_faq_excel [⟨Cell.blank, Cell.str s, Cell.str "Answer"⟩]
        = Except.ok [(resolveMain (pyStrip s), [])]) ∧
    (∀ s : String, strContainsSub s "System" = true →
        strContainsSub s "Coverage" = false →
        strContainsSub s "Letter of Guarantee" = false →
        resolveCbre s = "Portal Matters") ∧
    (∀ s : String, strContainsSub s "Coverage" = false →
        strContainsSub s "Letter of Guarantee" = false →
        strContainsSub s "System" = false →
        strContainsSub s "Status" = false →
        resolveCbre s = s) ∧
    resolveCbre "Portal / System" = "Portal Matters" ∧
    resolveCbre "Miscellaneous" = "Miscellaneous" ∧
    resolveCbre "Claims" = "Claims" ∧
    resolveMain "Claims" = "Claims Status" ∧
    resolveMain "Miscellaneous" = "Miscellaneous" ∧
    resolveMain "Portal / System" = "Portal / System" := by
  refine ⟨fun s => rfl, fun s => rfl, ?_, ?_, by decide, by decide, by decide,
    by decide, by decide, by decide⟩
  · intro s h1 h2 h3
    simp [resolveCbre, h1, h2, h3]
  · intro s h1 h2 h3 h4
    simp [resolveCbre, h1, h2, h3, h4]

/-- C1 witness: the amended resolution clauses applied at concrete labels. -/
theorem C1_resolution_amended_witness :
    resolveCbre "Portal / System" = "Portal Matters" ∧
    resolveCbre "Miscellaneous" = "Miscellaneous" :=
  ⟨C1_resolution_amended.2.2.1 "Portal / System" (by decide) (by decide) (by decide),
   C1_resolution_amended.2.2.2.1 "Miscellaneous" (by decide) (by decide) (by decide)
     (by decide)⟩

/-! ## C2 — header-row classification -/

/-- C2 (counterexample): in the main variant the header test is
`row[2] == "Answer"` without trimming, so a column-2 text that trims to
`"Answer"` but carries surrounding whitespace is NOT classified as a
header row, contradicting the claim; the whole grid extracts to the empty
mapping instead of opening section "S". -/
theorem C2_header_test_counterexample :
    pyStrip " Answer " = "Answer" ∧
    isHeaderMain ⟨Cell.blank, Cell.str "S", Cell.str " Answer "⟩ = false ∧
    parse_faq_excel [⟨Cell.blank, Cell.str "S", Cell.str " Answer "⟩]
      = Except.ok [] :=
  ⟨by decide, rfl, rfl⟩

/-- C2 (amended): in the CBRE variant a row is a header row exactly when
column 2 is present and its trimmed text equals `"Answer"` (surrounding
whitespace tolerated).  In the main variant the comparison is exact and
untrimmed: a row is a header row exactly when column 2 is a text cell
whose raw text equals `"Answer"`, so a padded `" Answer "` is not a
header row there. -/
theorem C2_header_test_amended :
    (∀ c0 c1 s, isHeaderCbre ⟨c0, c1, Cell.str s⟩ = (pyStrip s == "Answer")) ∧
    (∀ c0 c1, isHeaderCbre ⟨c0, c1, Cell.blank⟩ = false) ∧
    (∀ c0 c1 s, isHeaderMain ⟨c0, c1, Cell.str s⟩ = (s == "Answer")) ∧
    (∀ c0 c1, isHeaderMain ⟨c0, c1, Cell.blank⟩ = false) ∧
    (∀ c0 c1 n, isHeaderMain ⟨c0, c1, Cell.num n⟩ = false) ∧
    isHeaderCbre ⟨Cell.blank, Cell.str "S", Cell.str " Answer "⟩ = true ∧
    isHeaderMain ⟨Cell.blank, Cell.str "S", Cell.str " Answer "⟩ = false ∧
    parse_cbre_faq [⟨Cell.blank, Cell.str "S", Cell.str " Answer "⟩]
      = Except.ok [("S", [])] :=
  ⟨fun _ _ _ => rfl, fun _ _ => rfl, fun _ _ _ => rfl, fun _ _ => rfl,
   fun _ _ _ => rfl, by decide, rfl, rfl⟩

/-! ## C5 — last header wins -/

/-- C5: in both variants a header row (column 2 the `"Answer"` marker,
column 1 a text label) always stores a fresh empty list at the resolved
section name — resetting any list already there, in place — and makes it
the current section; reading the key back yields the empty list.
Concretely, after two `"Coverage"` headers with one record between them,
either variant's final mapping holds only the record that came after the
second header. -/
theorem C5_header_reset :
    (∀ (st : ExtState) (c0 : Cell) (s : String),
        procRow st ⟨c0, Cell.str s, Cell.str "Answer"⟩
          = Except.ok ⟨dictSet st.faq_data (resolveMain (pyStrip s)) [],
                        some (resolveMain (pyStrip s))⟩) ∧
    (∀ (st : ExtState) (c0 : Cell) (s : String),
        procRowCbre st ⟨c0, Cell.str s, Cell.str "Answer"⟩
          = Except.ok ⟨dictSet st.faq_data (resolveCbre (pyStrip s)) [],
                        some (resolveCbre (pyStrip s))⟩) ∧
    (∀ (d : FaqData) (k : String), dictGet (dictSet d k []) k = some []) ∧
    parse_faq_excel
        [⟨Cell.blank, Cell.str "Coverage", Cell.str "Answer"⟩,
         ⟨Cell.num 1, Cell.str "Q1", Cell.str "A1"⟩,
         ⟨Cell.blank, Cell.str "Coverage", Cell.str "Answer"⟩,
         ⟨Cell.num 2, Cell.str "Q2", Cell.str "A2"⟩]
      = Except.ok [("Benefit Coverage", [⟨2, "Q2", "A2"⟩])] ∧
    parse_cbre_faq
        [⟨Cell.blank, Cell.str "Coverage", Cell.str "Answer"⟩,
         ⟨Cell.num 1, Cell.str "Q1", Cell.str "A1"⟩,
         ⟨Cell.blank, Cell.str "Coverage", Cell.str "Answer"⟩,
         ⟨Cell.num 2, Cell.str "Q2", Cell.str "A2"⟩]
      = Except.ok [("Benefit Coverage", [⟨2, "Q2", "A2"⟩])] :=
  ⟨fun _ _ _ => rfl, fun _ _ _ => rfl, fun d k => dictGet_dictSet_self d k [],
   rfl, rfl⟩

/-! ## C9 — determinism -/

/-- C9: extraction is a pure function of the grid in both variants —
calling it twice on the same grid yields equal results, and the result
depends on nothing but the grid (both embeddings take only the grid as
input). -/
theorem C9_deterministic :
    (∀ g : List Row, parse_faq_excel g = parse_faq_excel g) ∧
    (∀ g : List Row, parse_cbre_faq g = parse_cbre_faq g) :=
  ⟨fun _ => rfl, fun _ => rfl⟩

/-! ## C4 — silent discard of unusable rows -/

/-- Running the scan over concatenated row lists threads the state, with
an error cutting the run short. -/
theorem runRows_append (xs ys : List Row) (st : ExtState) :
    runRows st (xs ++ ys)
      = match runRows st xs with
        | .ok st' => runRows st' ys
        | .error e => .error e := by
  induction xs generalizing st with
  | nil => rfl
  | cons r rs ih =>
      simp only [List.cons_append, runRows]
      cases procRow st r with
      | ok st' => exact ih st'
      | error e => rfl

/-- C4 (counterexample): as stated, the claim fails on the code.  The
row `["²", blank, blank]` is digit-led with a blank question — one of
the claim's silently-discarded classes — because Python `str.isdigit`
accepts `'²'`; but `int("²")` on line 36 raises `ValueError`, so the row
is not discarded silently and extraction aborts. -/
theorem C4_silent_discard_counterexample :
    pyIsDigit (pyStrip (pyStr (Cell.str "²"))) = true ∧
    isHeaderMain ⟨Cell.str "²", Cell.blank, Cell.blank⟩ = false ∧
    fieldText Cell.blank = "" ∧
    procRow ⟨[], none⟩ ⟨Cell.str "²", Cell.blank, Cell.blank⟩
        = Except.error "ValueError" ∧
    parse_faq_excel [⟨Cell.str "²", Cell.blank, Cell.blank⟩]
        = Except.error "ValueError" := by
  refine ⟨by decide, rfl, rfl, rfl, rfl⟩

/-- C4 (amended): in the main variant, a row matching neither the header
test nor the `isdigit` data test, a decimal digit-led row whose question
column is blank or absent, and a decimal digit-led row scanned with no
section open all leave the state exactly as it was and raise nothing;
deleting a row matching neither test from any grid does not change the
extraction result.  But a row that is digit-led by Python's `isdigit`
with a non-decimal digit in column 0 raises `ValueError` at `int(row[0])`
instead of being discarded. -/
theorem C4_silent_discard :
    (∀ (st : ExtState) (r : Row), isHeaderMain r = false → isDigitLedPy r = false →
        procRow st r = Except.ok st) ∧
    (∀ (st : ExtState) (r : Row), isHeaderMain r = false → isDigitLed r = true →
        fieldText r.c1 = "" → procRow st r = Except.ok st) ∧
    (∀ (st : ExtState) (r : Row), isHeaderMain r = false → isDigitLed r = true →
        st.current_section = none → procRow st r = Except.ok st) ∧
    (∀ (g1 g2 : List Row) (r : Row), isHeaderMain r = false → isDigitLedPy r = false →
        parse_faq_excel (g1 ++ r :: g2) = parse_faq_excel (g1 ++ g2)) ∧
    (∀ (st : ExtState) (r : Row), isHeaderMain r = false → isDigitLedPy r = true →
        isDigitLed r = false → procRow st r = Except.error "ValueError") := by
  have hskip : ∀ (st : ExtState) (r : Row), isHeaderMain r = false → isDigitLedPy r = false →
      procRow st r = Except.ok st := by
    intro st r h1 h2
    simp [procRow, h1, h2]
  refine ⟨hskip, ?_, ?_, ?_, ?_⟩
  · intro st r h1 h2 h3
    simp [procRow, h1, isDigitLedPy_of_isDigitLed r h2, h2, h3]
  · intro st r h1 h2 h3
    simp [procRow, h1, isDigitLedPy_of_isDigitLed r h2, h2, h3, sectionTruthy]
  · intro g1 g2 r h1 h2
    show (match runRows ⟨[], none⟩ (g1 ++ r :: g2) with
          | .ok st => Except.ok st.faq_data
          | .error e => .error e)
        = match runRows ⟨[], none⟩ (g1 ++ g2) with
          | .ok st => Except.ok st.faq_data
          | .error e => .error e
    rw [runRows_append, runRows_append]
    cases hg1 : runRows ⟨[], none⟩ g1 with
    | ok st' =>
        show (match runRows st' (r :: g2) with
              | .ok st => Except.ok st.faq_data
              | .error e => .error e) = _
        simp only [runRows, hskip st' r h1 h2]
    | error e => rfl
  · intro st r h1 h2 h3
    simp [procRow, h1, h2, h3]

/-- C4 witness: the amended clauses applied to concrete rows — a
non-digit row, a decimal digit-led row with an absent question, a
decimal digit-led row seen before any header, a blank row deleted from a
one-row grid, and a superscript-digit row that raises. -/
theorem C4_silent_discard_witness :
    procRow ⟨[], none⟩ ⟨Cell.str "x", Cell.blank, Cell.blank⟩
        = Except.ok ⟨[], none⟩ ∧
    procRow ⟨[("S", [])], some "S"⟩ ⟨Cell.str "7", Cell.blank, Cell.str "ans"⟩
        = Except.ok ⟨[("S", [])], some "S"⟩ ∧
    procRow ⟨[], none⟩ ⟨Cell.str "7", Cell.str "Q", Cell.str "A"⟩
        = Except.ok ⟨[], none⟩ ∧
    parse_faq_excel [⟨Cell.blank, Cell.blank, Cell.blank⟩] = parse_faq_excel [] ∧
    procRow ⟨[("S", [])], some "S"⟩ ⟨Cell.str "²", Cell.str "Q", Cell.str "A"⟩
        = Except.error "ValueError" :=
  ⟨C4_silent_discard.1 _ _ (by decide) (by decide),
   C4_silent_discard.2.1 _ _ (by decide) (by decide) (by decide),
   C4_silent_discard.2.2.1 _ _ (by decide) (by decide) rfl,
   C4_silent_discard.2.2.2.1 [] [] _ (by decide) (by decide),
   C4_silent_discard.2.2.2.2 _ _ (by decide) (by decide) (by decide)⟩

/-! ## C6 — empty answers are preserved -/

/-- A non-empty string has a non-empty character list. -/
theorem data_ne_nil_of_ne_empty (s : String) (h : s ≠ "") : s.data ≠ [] :=
  fun hd => h (String.ext hd)

/-- C6: a digit-led row with a non-empty trimmed question and an absent or
all-whitespace column-2 cell, scanned while a non-empty section is open
(and stored in the dict), appends a Record whose answer is the empty
string to that section's list — the empty answer is kept, not defaulted
or dropped. -/
theorem C6_empty_answer_preserved :
    ∀ (st : ExtState) (cs : String) (old : List Record) (r : Row),
      st.current_section = some cs → cs ≠ "" →
      dictGet st.faq_data cs = some old →
      isDigitLed r = true → fieldText r.c1 ≠ "" →
      (r.c2 = Cell.blank ∨ ∃ s, r.c2 = Cell.str s ∧ pyStrip s = "") →
      ∃ st', procRow st r = Except.ok st' ∧
        st'.current_section = some cs ∧
        dictGet st'.faq_data cs
          = some (old ++ [⟨pyInt r.c0, fieldText r.c1, ""⟩]) := by
  intro st cs old r hcur hcs hget hdig hq hc2
  have hhead : isHeaderMain r = false := by
    rcases hc2 with h | ⟨s, hs, hstrip⟩
    · simp [isHeaderMain, h, notna]
    · have hbeq : (s == "Answer") = false := by
        cases hbe : (s == "Answer") with
        | false => rfl
        | true =>
            have hse : s = "Answer" := eq_of_beq hbe
            rw [hse] at hstrip
            exact absurd hstrip (by decide)
      simp [isHeaderMain, hs, notna, cellEqAnswer, hbeq]
  have hans : fieldText r.c2 = "" := by
    rcases hc2 with h | ⟨s, hs, hstrip⟩
    · simp [fieldText, h, notna]
    · simp [fieldText, hs, notna, pyStr, hstrip]
  have htruthy : sectionTruthy (some cs) = true := by
    have := data_ne_nil_of_ne_empty cs hcs
    cases hl : cs.data with
    | nil => exact absurd hl this
    | cons a as => simp [sectionTruthy, hl]
  have hqdata : (fieldText r.c1).data ≠ [] := data_ne_nil_of_ne_empty _ hq
  refine ⟨⟨dictAppendKey st.faq_data cs ⟨pyInt r.c0, fieldText r.c1, fieldText r.c2⟩,
           some cs⟩, ?_, rfl, ?_⟩
  · cases hl : (fieldText r.c1).data with
    | nil => exact absurd hl hqdata
    | cons a as =>
        simp [procRow, hhead, isDigitLedPy_of_isDigitLed r hdig, hdig, hcur,
          htruthy, hl]
  · rw [hans]
    exact dictGet_dictAppendKey_self _ _ _ _ hget

/-- C6 witness: the theorem applied to a concrete state and row — section
"Benefit Coverage" open with an empty list, row `4 | "Q?" | blank`. -/
theorem C6_empty_answer_preserved_witness :
    ∃ st', procRow ⟨[("Benefit Coverage", [])], some "Benefit Coverage"⟩
        ⟨Cell.str "4", Cell.str "Q?", Cell.blank⟩ = Except.ok st' ∧
      st'.current_section = some "Benefit Coverage" ∧
      dictGet st'.faq_data "Benefit Coverage"
        = some ([] ++ [⟨pyInt (Cell.str "4"), fieldText (Cell.str "Q?"), ""⟩]) :=
  C6_empty_answer_preserved _ "Benefit Coverage" [] _ rfl (by decide) rfl
    (by decide) (by decide) (Or.inl rfl)

/-! ## C10 — header marker with an absent label -/

/-- C10 (counterexample): as stated, the claim fails on the code.  In the
main variant a row whose column-2 text trims to `"Answer"` but is not
exactly `"Answer"` falls into the data branch; if its column-0 value is
digit-led by Python's `isdigit` with a non-decimal digit (here `"²"`),
`int(row[0])` raises `ValueError` before the empty question can discard
the row — the state is not left unchanged, extraction aborts. -/
theorem C10_header_without_label_counterexample :
    pyStrip " Answer " = "Answer" ∧
    pyIsDigit (pyStrip (pyStr (Cell.str "²"))) = true ∧
    procRow ⟨[], none⟩ ⟨Cell.str "²", Cell.blank, Cell.str " Answer "⟩
      = Except.error "ValueError" := by
  refine ⟨by decide, by decide, rfl⟩

/-- C10 (amended): a row whose column-2 text trims to `"Answer"` with an
absent column-1 cell leaves the state unchanged and produces no Record,
except for one main-variant case: when column 2 is not exactly `"Answer"`
(so the row falls to the data branch) and column 0 is digit-led by
`isdigit` with a non-decimal digit, `int(row[0])` raises `ValueError`.
With column 2 exactly `"Answer"` the main variant is always a no-op
whatever column 0 holds; in the CBRE variant such a row is always a
no-op. -/
theorem C10_header_without_label_noop :
    (∀ (stM : ExtState) (c0 : Cell),
        procRow stM ⟨c0, Cell.blank, Cell.str "Answer"⟩ = Except.ok stM) ∧
    (∀ (stM : ExtState) (c0 : Cell) (ws : String), pyStrip ws = "Answer" →
        (isDigitLedPy ⟨c0, Cell.blank, Cell.str ws⟩ = true →
          isDigitLed ⟨c0, Cell.blank, Cell.str ws⟩ = true) →
        procRow stM ⟨c0, Cell.blank, Cell.str ws⟩ = Except.ok stM) ∧
    (∀ (stC : ExtState) (c0 : Cell) (ws : String), pyStrip ws = "Answer" →
        procRowCbre stC ⟨c0, Cell.blank, Cell.str ws⟩ = Except.ok stC) := by
  refine ⟨?_, ?_, ?_⟩
  · intro stM c0
    simp [procRow, isHeaderMain, cellEqAnswer, notna]
  · intro stM c0 ws hws hdec
    by_cases h : (ws == "Answer") = true
    · simp [procRow, isHeaderMain, cellEqAnswer, notna, h]
    · cases hdp : isDigitLedPy ⟨c0, Cell.blank, Cell.str ws⟩ with
      | false =>
          simp [procRow, isHeaderMain, cellEqAnswer, notna, h, hdp]
      | true =>
          simp [procRow, isHeaderMain, cellEqAnswer, notna, h, hdp,
            hdec hdp, fieldText]
  · intro stC c0 ws hws
    simp [procRowCbre, isHeaderCbre, notna, pyStr, hws]

/-- C10 witness: the amended clauses applied to a padded `" Answer "`
marker with a decimal column 0, in a fresh state and in a state with an
open section. -/
theorem C10_header_without_label_noop_witness :
    procRow ⟨[], none⟩ ⟨Cell.str "3", Cell.blank, Cell.str " Answer "⟩
        = Except.ok ⟨[], none⟩ ∧
    procRowCbre ⟨[("X", [])], some "X"⟩ ⟨Cell.str "3", Cell.blank, Cell.str " Answer "⟩
        = Except.ok ⟨[("X", [])], some "X"⟩ :=
  ⟨C10_header_without_label_noop.2.1 _ _ " Answer " (by decide) (by decide),
   C10_header_without_label_noop.2.2 _ _ " Answer " (by decide)⟩

/-! ## C7 — extraction never raises -/

/-- True exactly on numeric cells (the cells on which a bare `.strip()`
raises `AttributeError`). -/
def isNumCell : Cell → Bool
  | .num _ => true
  | _ => false

/-- The main-variant step succeeds whenever the row is not a header with
a numeric column-1 cell and not a digit-led row with a non-decimal digit
in column 0. -/
theorem procRow_ok (st : ExtState) (r : Row)
    (h : cellEqAnswer r.c2 = true → isNumCell r.c1 = false)
    (hdec : isHeaderMain r = false → isDigitLedPy r = true → isDigitLed r = true) :
    ∃ st', procRow st r = Except.ok st' := by
  cases hh : isHeaderMain r with
  | true =>
      cases hn : notna r.c1 with
      | false => exact ⟨st, by simp [procRow, hh, hn]⟩
      | true =>
          cases hc1 : r.c1 with
          | blank => rw [hc1] at hn; simp [notna] at hn
          | str s =>
              exact ⟨⟨dictSet st.faq_data (resolveMain (pyStrip s)) [],
                      some (resolveMain (pyStrip s))⟩,
                     by simp [procRow, hh, hc1, notna]⟩
          | num n =>
              have hce : cellEqAnswer r.c2 = true := by
                simp [isHeaderMain, Bool.and_eq_true] at hh
                exact hh.2
              have hnum := h hce
              rw [hc1] at hnum
              simp [isNumCell] at hnum
  | false =>
      cases hdp : isDigitLedPy r with
      | false => exact ⟨st, by simp [procRow, hh, hdp]⟩
      | true =>
          have hd : isDigitLed r = true := hdec hh hdp
          cases hcs : st.current_section with
          | none => exact ⟨st, by simp [procRow, hh, hdp, hd, hcs, sectionTruthy]⟩
          | some cs =>
              cases hcond : (sectionTruthy (some cs) && !(fieldText r.c1).data.isEmpty) with
              | false => exact ⟨st, by simp [procRow, hh, hdp, hd, hcs, hcond]⟩
              | true =>
                  exact ⟨⟨dictAppendKey st.faq_data cs
                            ⟨pyInt r.c0, fieldText r.c1, fieldText r.c2⟩, some cs⟩,
                         by simp [procRow, hh, hdp, hd, hcs, hcond]⟩

/-- The CBRE step succeeds whenever the row is not a digit-led row with a
non-decimal digit in column 0. -/
theorem procRowCbre_ok (st : ExtState) (r : Row)
    (hdec : isHeaderCbre r = false → isDigitLedPy r = true → isDigitLed r = true) :
    ∃ st', procRowCbre st r = Except.ok st' := by
  cases hh : isHeaderCbre r with
  | true =>
      cases hn : notna r.c1 with
      | false => exact ⟨st, by simp [procRowCbre, hh, hn]⟩
      | true =>
          exact ⟨⟨dictSet st.faq_data (resolveCbre (pyStrip (pyStr r.c1))) [],
                  some (resolveCbre (pyStrip (pyStr r.c1)))⟩,
                 by simp [procRowCbre, hh, hn]⟩
  | false =>
      cases hdp : isDigitLedPy r with
      | false => exact ⟨st, by simp [procRowCbre, hh, hdp]⟩
      | true =>
          have hd : isDigitLed r = true := hdec hh hdp
          cases hcs : st.current_section with
          | none => exact ⟨st, by simp [procRowCbre, hh, hdp, hd, hcs, sectionTruthy]⟩
          | some cs =>
              cases hcond : (sectionTruthy (some cs) && !(fieldText r.c1).data.isEmpty) with
              | false => exact ⟨st, by simp [procRowCbre, hh, hdp, hd, hcs, hcond]⟩
              | true =>
                  exact ⟨⟨dictAppendKey st.faq_data cs
                            ⟨pyInt r.c0, fieldText r.c1, fieldText r.c2⟩, some cs⟩,
                         by simp [procRowCbre, hh, hdp, hd, hcs, hcond]⟩

/-- The whole main-variant scan succeeds whenever no header row carries a
numeric column-1 cell and no digit-led row carries a non-decimal digit. -/
theorem runRows_ok_of_no_num_header (g : List Row) :
    ∀ st : ExtState,
      (∀ r ∈ g, cellEqAnswer r.c2 = true → isNumCell r.c1 = false) →
      (∀ r ∈ g, isHeaderMain r = false → isDigitLedPy r = true →
        isDigitLed r = true) →
    ∃ st', runRows st g = Except.ok st' := by
  induction g with
  | nil => exact fun st _ _ => ⟨st, rfl⟩
  | cons r rs ih =>
      intro st hg hg2
      obtain ⟨st1, h1⟩ := procRow_ok st r (hg r (by simp)) (hg2 r (by simp))
      obtain ⟨st2, h2⟩ := ih st1 (fun x hx => hg x (by simp [hx]))
        (fun x hx => hg2 x (by simp [hx]))
      exact ⟨st2, by simp [runRows, h1, h2]⟩

/-- The whole CBRE scan succeeds whenever no digit-led row carries a
non-decimal digit. -/
theorem runRowsCbre_ok (g : List Row) :
    ∀ st : ExtState,
      (∀ r ∈ g, isHeaderCbre r = false → isDigitLedPy r = true →
        isDigitLed r = true) →
    ∃ st', runRowsCbre st g = Except.ok st' := by
  induction g with
  | nil => exact fun st _ => ⟨st, rfl⟩
  | cons r rs ih =>
      intro st hg
      obtain ⟨st1, h1⟩ := procRowCbre_ok st r (hg r (by simp))
      obtain ⟨st2, h2⟩ := ih st1 (fun x hx => hg x (by simp [hx]))
      exact ⟨st2, by simp [runRowsCbre, h1, h2]⟩

/-- C7 (counterexample): as stated, the claim fails on the main variant.
A grid with a single header row whose column-1 cell is numeric makes
`parse_faq_excel` evaluate `row[1].strip()` on a number, which raises
`AttributeError` — a row-level anomaly that does abort extraction. -/
theorem C7_no_raise_counterexample :
    parse_faq_excel [⟨Cell.blank, Cell.num 5, Cell.str "Answer"⟩]
      = Except.error "AttributeError" := rfl

/-- C7 (amended): both variants raise `ValueError` at `int(row[0])` on a
data row whose trimmed column-0 text passes Python's `isdigit` but
contains a non-decimal digit character (such as `"²"`); the main variant
additionally raises `AttributeError` on a header row with a numeric
column-1 cell.  On every grid free of those row patterns the main
variant runs to completion, and on every grid free of the first pattern
the CBRE variant runs to completion — all other row-level anomalies,
unknown labels and non-text cells included, never make either extractor
raise. -/
theorem C7_no_raise_amended :
    (∀ g : List Row,
        (∀ r ∈ g, cellEqAnswer r.c2 = true → isNumCell r.c1 = false) →
        (∀ r ∈ g, isHeaderMain r = false → isDigitLedPy r = true →
          isDigitLed r = true) →
        ∃ m, parse_faq_excel g = Except.ok m) ∧
    (∀ g : List Row,
        (∀ r ∈ g, isHeaderCbre r = false → isDigitLedPy r = true →
          isDigitLed r = true) →
        ∃ m, parse_cbre_faq g = Except.ok m) ∧
    parse_faq_excel [⟨Cell.str "²", Cell.str "Q", Cell.str "A"⟩]
      = Except.error "ValueError" ∧
    parse_cbre_faq [⟨Cell.str "²", Cell.str "Q", Cell.str "A"⟩]
      = Except.error "ValueError" := by
  refine ⟨?_, ?_, rfl, rfl⟩
  · intro g hg hg2
    obtain ⟨st', h⟩ := runRows_ok_of_no_num_header g ⟨[], none⟩ hg hg2
    exact ⟨st'.faq_data, by simp [parse_faq_excel, h]⟩
  · intro g hg
    obtain ⟨st', h⟩ := runRowsCbre_ok g ⟨[], none⟩ hg
    exact ⟨st'.faq_data, by simp [parse_cbre_faq, h]⟩

/-- C7 witness: concrete mixed grids — an unknown label, a non-text data
cell, a malformed row — on which each variant returns successfully. -/
theorem C7_no_raise_amended_witness :
    (∃ m, parse_faq_excel
        [⟨Cell.blank, Cell.str "Weird Label", Cell.str "Answer"⟩,
         ⟨Cell.str "1", Cell.num 99, Cell.str "A"⟩,
         ⟨Cell.str "oops", Cell.blank, Cell.num 7⟩] = Except.ok m) ∧
    (∃ m, parse_cbre_faq
        [⟨Cell.blank, Cell.str "Weird Label", Cell.str "Answer"⟩,
         ⟨Cell.str "1", Cell.num 99, Cell.str "A"⟩,
         ⟨Cell.str "oops", Cell.blank, Cell.num 7⟩] = Except.ok m) :=
  ⟨C7_no_raise_amended.1 _ (by decide) (by decide),
   C7_no_raise_amended.2.1 _ (by decide)⟩

/-! ## C8 — lossless persistence round trip

The extraction result is persisted with `json.dump(faq_data, f, indent=2,
ensure_ascii=False)` and read back with `json.load(f)` in
`generate_sql_inserts.py`.  The serialization is modelled at the level of
the JSON document it writes: a JSON object whose fields are the sections
in insertion order, each holding an array of record objects with the keys
`number`, `question`, `answer` in the order the source builds them. -/

/-- A JSON value. -/
inductive JVal where
  | jstr : String → JVal
  | jint : Int → JVal
  | jarr : List JVal → JVal
  | jobj : List (String × JVal) → JVal

/-- Serialization of one record, mirroring the dict literal of
`parse_excel_faq.py` lines 41–45. -/
def recordToJson (r : Record) : JVal :=
  .jobj [("number", .jint r.number), ("question", .jstr r.question),
         ("answer", .jstr r.answer)]

/-- Deserialization of one record. -/
def recordFromJson : JVal → Option Record
  | .jobj [("number", .jint n), ("question", .jstr q), ("answer", .jstr a)] =>
      some ⟨n, q, a⟩
  | _ => none

/-- Deserialization of a record array, failing on any malformed element. -/
def recListFromJson : List JVal → Option (List Record)
  | [] => some []
  | j :: js =>
      match recordFromJson j, recListFromJson js with
      | some r, some rs => some (r :: rs)
      | _, _ => none

/-- Serialization of the whole mapping: a JSON object in section
insertion order. -/
def faqToJson (d : FaqData) : JVal :=
  .jobj (d.map fun p => (p.1, .jarr (p.2.map recordToJson)))

/-- Deserialization of the object fields back into the mapping. -/
def faqFieldsFromJson : List (String × JVal) → Option FaqData
  | [] => some []
  | (k, .jarr js) :: rest =>
      match recListFromJson js, faqFieldsFromJson rest with
      | some l, some d => some ((k, l) :: d)
      | _, _ => none
  | _ => none

/-- Deserialization of the whole mapping. -/
def faqFromJson : JVal → Option FaqData
  | .jobj fields => faqFieldsFromJson fields
  | _ => none

/-- One record round-trips. -/
theorem recordFromJson_recordToJson (r : Record) :
    recordFromJson (recordToJson r) = some r := rfl

/-- A record list round-trips. -/
theorem recListFromJson_map (l : List Record) :
    recListFromJson (l.map recordToJson) = some l := by
  induction l with
  | nil => rfl
  | cons r rs ih => simp [recListFromJson, recordFromJson_recordToJson, ih]

/-- C8: deserializing the serialized form of any extraction mapping gives
back a mapping equal to the original — sections in the same insertion
order, records in the same order, with numbers, questions and answers
(empty answers included) intact. -/
theorem C8_roundtrip (d : FaqData) : faqFromJson (faqToJson d) = some d := by
  induction d with
  | nil => rfl
  | cons p rest ih =>
      obtain ⟨k, l⟩ := p
      simp only [faqToJson, List.map_cons, faqFromJson, faqFieldsFromJson,
        recListFromJson_map l]
      simp only [faqToJson, faqFromJson] at ih
      simp [ih]

/-! ## C3 — attribution and order preservation

The claim is about the main variant (`parse_faq_excel`).  A data row's
section is characterised from the grid alone: the most recent
section-opening header row strictly before it. -/

/-- A header row that actually opens a section: the header test passes
and column 1 is present (lines 15 and 17). -/
def opensSec (r : Row) : Bool :=
  isHeaderMain r && notna r.c1

/-- The name a section-opening header resolves to.  Only meaningful when
column 1 is a text cell; on a numeric column 1 the real code raises, so
such rows occur on no successful run. -/
def headerName (r : Row) : String :=
  match r.c1 with
  | Cell.str s => resolveMain (pyStrip s)
  | _ => ""

/-- The current section after scanning a list of rows. -/
def curSecAfter (g : List Row) : Option String :=
  g.foldl (fun cs r => if opensSec r then some (headerName r) else cs) none

/-- The section to which a data row at index `i` is attributed: the
section opened by the most recent section-opening header among the rows
strictly before `i`. -/
def attributedAt (g : List Row) (i : Nat) : Option String :=
  curSecAfter (g.take i)

/-- Row `r` is a data row producing record `rec`: it fails the header
test, passes the digit-led test, has a non-empty trimmed question, and
`rec` carries exactly the number/question/answer the code extracts. -/
def producesRec (r : Row) (rec : Record) : Prop :=
  isHeaderMain r = false ∧ isDigitLed r = true ∧ fieldText r.c1 ≠ "" ∧
  rec = ⟨pyInt r.c0, fieldText r.c1, fieldText r.c2⟩

/-- Index `i` of grid `g` is a data row producing `rec`, attributed to
section `s`. -/
def goodIdx (g : List Row) (s : String) (i : Nat) (rec : Record) : Prop :=
  ∃ r, g[i]? = some r ∧ producesRec r rec ∧ attributedAt g i = some s

/-- Lookup after a set: the stored value at the written key, unchanged
elsewhere. -/
theorem dictGet_dictSet (d : FaqData) (k s : String) (v : List Record) :
    dictGet (dictSet d k v) s = if s = k then some v else dictGet d s := by
  induction d with
  | nil =>
      by_cases h : s = k
      · simp [dictSet, dictGet, h]
      · simp [dictSet, dictGet, h, Ne.symm h]
  | cons p rest ih =>
      obtain ⟨k', v'⟩ := p
      by_cases hk : k' = k
      · subst hk
        by_cases hs : s = k'
        · simp [dictSet, dictGet, hs]
        · simp [dictSet, dictGet, hs, Ne.symm hs]
      · by_cases hs : k' = s
        · subst hs
          simp [dictSet, dictGet, hk, Ne.symm hk]
        · simp [dictSet, dictGet, hk, hs, ih]

/-- Lookup after an in-place append: the extended value at the written
key, unchanged elsewhere. -/
theorem dictGet_dictAppendKey (d : FaqData) (k s : String) (r : Record) :
    dictGet (dictAppendKey d k r) s
      = if s = k then (dictGet d k).map (fun l => l ++ [r]) else dictGet d s := by
  induction d with
  | nil =>
      by_cases h : s = k <;> simp [dictAppendKey, dictGet, h]
  | cons p rest ih =>
      obtain ⟨k', v'⟩ := p
      by_cases hk : k' = k
      · subst hk
        by_cases hs : s = k'
        · simp [dictAppendKey, dictGet, hs]
        · simp [dictAppendKey, dictGet, hs, Ne.symm hs]
      · by_cases hs : k' = s
        · subst hs
          simp [dictAppendKey, dictGet, hk, Ne.symm hk]
        · simp [dictAppendKey, dictGet, hk, hs, ih]

/-- Keys are unchanged by an in-place append. -/
theorem keys_dictAppendKey (d : FaqData) (k : String) (r : Record) :
    (dictAppendKey d k r).map Prod.fst = d.map Prod.fst := by
  induction d with
  | nil => rfl
  | cons p rest ih =>
      obtain ⟨k', v'⟩ := p
      by_cases h : k' = k <;> simp [dictAppendKey, h, ih]

/-- Keys after a set: unchanged if the key was present, the key appended
at the end otherwise. -/
theorem keys_dictSet (d : FaqData) (k : String) (v : List Record) :
    (dictSet d k v).map Prod.fst
      = if k ∈ d.map Prod.fst then d.map Prod.fst
        else d.map Prod.fst ++ [k] := by
  induction d with
  | nil => simp [dictSet]
  | cons p rest ih =>
      obtain ⟨k', v'⟩ := p
      by_cases h : k' = k
      · subst h; simp [dictSet]
      · have hne : ¬(k = k') := fun he => h he.symm
        by_cases h2 : k ∈ rest.map Prod.fst <;>
          simp [dictSet, h, hne, h2, ih]

/-- A set preserves key distinctness. -/
theorem nodup_keys_dictSet (d : FaqData) (k : String) (v : List Record)
    (h : (d.map Prod.fst).Nodup) : ((dictSet d k v).map Prod.fst).Nodup := by
  rw [keys_dictSet]
  by_cases h2 : k ∈ d.map Prod.fst
  · simp [h2, h]
  · simp [h2, List.nodup_append, h]

/-- With distinct keys, association-list membership agrees with lookup. -/
theorem dictGet_of_mem (d : FaqData) (s : String) (l : List Record)
    (hnd : (d.map Prod.fst).Nodup) (h : (s, l) ∈ d) : dictGet d s = some l := by
  induction d with
  | nil => simp at h
  | cons p rest ih =>
      obtain ⟨k', v'⟩ := p
      rcases List.mem_cons.mp h with he | hm
      · obtain ⟨h1, h2⟩ := Prod.mk.injEq .. ▸ he
        simp [dictGet, h1.symm, h2]
      · have hk : k' ≠ s := by
          intro he
          subst he
          have hs : k' ∈ rest.map Prod.fst :=
            List.mem_map.mpr ⟨(k', l), hm, rfl⟩
          exact (List.nodup_cons.mp (by simpa using hnd)).1 hs
        simp [dictGet, hk, ih (List.nodup_cons.mp (by simpa using hnd)).2 hm]

/-- Loop invariant of the main-variant scan after the first `n` rows of
`g`: the current section is the one characterised from the grid prefix,
keys are distinct, the current section (if any) is present in the dict,
and every stored list is witnessed by increasing row indices of data rows
attributed to its section. -/
def stInv (g : List Row) (n : Nat) (st : ExtState) : Prop :=
  st.current_section = curSecAfter (g.take n) ∧
  (st.faq_data.map Prod.fst).Nodup ∧
  (∀ cs, st.current_section = some cs → ∃ l, dictGet st.faq_data cs = some l) ∧
  (∀ s l, dictGet st.faq_data s = some l →
    ∃ idxs : List Nat, List.Pairwise (· < ·) idxs ∧ (∀ i ∈ idxs, i < n) ∧
      List.Forall₂ (goodIdx g s) idxs l)

/-- The invariant holds before any row is scanned. -/
theorem stInv_init (g : List Row) : stInv g 0 ⟨[], none⟩ := by
  refine ⟨by simp [curSecAfter], by simp, ?_, ?_⟩
  · intro cs h; exact absurd h (by simp)
  · intro s l h; simp [dictGet] at h

/-- Pointwise strengthening of `Forall₂` using membership on the left. -/
theorem forall₂_mono_mem {α β : Type} {R S : α → β → Prop} :
    ∀ {l1 : List α} {l2 : List β}, (∀ a ∈ l1, ∀ b, R a b → S a b) →
      List.Forall₂ R l1 l2 → List.Forall₂ S l1 l2 := by
  intro l1 l2 hmono h
  induction h with
  | nil => exact List.Forall₂.nil
  | cons ha _ ih =>
      exact List.Forall₂.cons (hmono _ (by simp) _ ha)
        (ih (fun a hm b hr => hmono a (by simp [hm]) b hr))

/-- A witnessed index below the old length survives appending a row. -/
theorem goodIdx_append (g : List Row) (r : Row) (s : String) (i : Nat)
    (rec : Record) (hi : i < g.length) (h : goodIdx g s i rec) :
    goodIdx (g ++ [r]) s i rec := by
  obtain ⟨row, hget, hprod, hattr⟩ := h
  refine ⟨row, ?_, hprod, ?_⟩
  · rw [List.getElem?_append_left hi]; exact hget
  · unfold attributedAt at hattr ⊢
    rw [List.take_append_of_le_length (Nat.le_of_lt hi)]
    exact hattr

/-- The invariant over `g` at `n = g.length` transfers to `g ++ [r]`. -/
theorem stInv_append (g : List Row) (r : Row) (st : ExtState)
    (h : stInv g g.length st) : stInv (g ++ [r]) g.length st := by
  obtain ⟨h1, h2, h3, h4⟩ := h
  refine ⟨?_, h2, h3, ?_⟩
  · rw [List.take_left]
    rw [List.take_length] at h1
    exact h1
  · intro s l hget
    obtain ⟨idxs, hpair, hbound, hfa⟩ := h4 s l hget
    exact ⟨idxs, hpair, hbound,
      forall₂_mono_mem
        (fun i him rec hr => goodIdx_append g r s i rec (hbound i him) hr) hfa⟩

/-- Rows that do not open a section and leave the state unchanged push the
invariant one row forward. -/
theorem stInv_frame (g : List Row) (r : Row) (st : ExtState)
    (hinv : stInv (g ++ [r]) g.length st) (hopens : opensSec r = false) :
    stInv (g ++ [r]) (g.length + 1) st := by
  obtain ⟨h1, h2, h3, h4⟩ := hinv
  have htake : (g ++ [r]).take g.length = g := List.take_left g [r]
  have htake1 : (g ++ [r]).take (g.length + 1) = g ++ [r] := by
    have hlen : (g ++ [r]).length = g.length + 1 := by simp
    rw [← hlen, List.take_length]
  refine ⟨?_, h2, h3, ?_⟩
  · rw [htake1]
    have hcur : curSecAfter (g ++ [r]) = curSecAfter g := by
      simp [curSecAfter, List.foldl_append, hopens]
    rw [hcur, ← htake]
    exact h1
  · intro s l hget
    obtain ⟨idxs, hpair, hbound, hfa⟩ := h4 s l hget
    exact ⟨idxs, hpair, fun i hi => Nat.lt_succ_of_lt (hbound i hi), hfa⟩

/-- One successful step pushes the invariant across the appended row. -/
theorem stInv_step (g : List Row) (r : Row) (st st' : ExtState)
    (hinv : stInv (g ++ [r]) g.length st)
    (hstep : procRow st r = Except.ok st') :
    stInv (g ++ [r]) (g.length + 1) st' := by
  have htake : (g ++ [r]).take g.length = g := List.take_left g [r]
  have htake1 : (g ++ [r]).take (g.length + 1) = g ++ [r] := by
    have hlen : (g ++ [r]).length = g.length + 1 := by simp
    rw [← hlen, List.take_length]
  cases hh : isHeaderMain r with
  | true =>
      cases hc1 : r.c1 with
      | blank =>
          have heval : procRow st r = Except.ok st := by
            simp [procRow, hh, hc1, notna]
          rw [heval] at hstep
          injection hstep with he
          subst he
          exact stInv_frame g r st hinv (by simp [opensSec, hh, hc1, notna])
      | num n0 =>
          have heval : procRow st r = Except.error "AttributeError" := by
            simp [procRow, hh, hc1, notna]
          rw [heval] at hstep
          cases hstep
      | str s0 =>
          obtain ⟨h1, h2, h3, h4⟩ := hinv
          have heval : procRow st r
              = Except.ok ⟨dictSet st.faq_data (resolveMain (pyStrip s0)) [],
                           some (resolveMain (pyStrip s0))⟩ := by
            simp [procRow, hh, hc1, notna]
          rw [heval] at hstep
          injection hstep with he
          subst he
          refine ⟨?_, nodup_keys_dictSet _ _ _ h2, ?_, ?_⟩
          · rw [htake1]
            have hcur : curSecAfter (g ++ [r])
                = if opensSec r then some (headerName r) else curSecAfter g := by
              simp [curSecAfter, List.foldl_append]
            have hopens : opensSec r = true := by simp [opensSec, hh, hc1, notna]
            rw [hcur, hopens]
            simp [headerName, hc1]
          · intro cs hcs
            have hcseq : resolveMain (pyStrip s0) = cs := by
              injection hcs
            refine ⟨[], ?_⟩
            rw [← hcseq, dictGet_dictSet, if_pos rfl]
          · intro s' l hget
            rw [dictGet_dictSet] at hget
            by_cases hs : s' = resolveMain (pyStrip s0)
            · rw [if_pos hs] at hget
              injection hget with hl
              exact ⟨[], by simp, by simp, by rw [← hl]; exact List.Forall₂.nil⟩
            · rw [if_neg hs] at hget
              obtain ⟨idxs, hpair, hbound, hfa⟩ := h4 s' l hget
              exact ⟨idxs, hpair, fun i hi => Nat.lt_succ_of_lt (hbound i hi), hfa⟩
  | false =>
      have hopens : opensSec r = false := by simp [opensSec, hh]
      cases hdp : isDigitLedPy r with
      | false =>
          have heval : procRow st r = Except.ok st := by simp [procRow, hh, hdp]
          rw [heval] at hstep
          injection hstep with he
          subst he
          exact stInv_frame g r st hinv hopens
      | true =>
          cases hd : isDigitLed r with
          | false =>
              have heval : procRow st r = Except.error "ValueError" := by
                simp [procRow, hh, hdp, hd]
              rw [heval] at hstep
              cases hstep
          | true =>
              cases hcs : st.current_section with
              | none =>
                  have heval : procRow st r = Except.ok st := by
                    simp [procRow, hh, hdp, hd, hcs, sectionTruthy]
                  rw [heval] at hstep
                  injection hstep with he
                  subst he
                  exact stInv_frame g r st hinv hopens
              | some cs =>
                  cases hcond : (sectionTruthy (some cs)
                      && !(fieldText r.c1).data.isEmpty) with
                  | false =>
                      have heval : procRow st r = Except.ok st := by
                        simp [procRow, hh, hdp, hd, hcs, hcond]
                      rw [heval] at hstep
                      injection hstep with he
                      subst he
                      exact stInv_frame g r st hinv hopens
                  | true =>
                      obtain ⟨h1, h2, h3, h4⟩ := hinv
                      have heval : procRow st r
                          = Except.ok ⟨dictAppendKey st.faq_data cs
                              ⟨pyInt r.c0, fieldText r.c1, fieldText r.c2⟩, some cs⟩ := by
                        simp [procRow, hh, hdp, hd, hcs, hcond]
                      rw [heval] at hstep
                      injection hstep with he
                      subst he
                      have hq : fieldText r.c1 ≠ "" := by
                        have hq1 : (fieldText r.c1).data.isEmpty = false := by
                          cases hqe : (fieldText r.c1).data.isEmpty with
                          | false => rfl
                          | true => rw [hqe] at hcond; simp at hcond
                        intro he
                        rw [he] at hq1
                        simp at hq1
                      have hcurg : curSecAfter g = some cs := by
                        rw [htake] at h1
                        rw [← h1, hcs]
                      have hattr_new : attributedAt (g ++ [r]) g.length = some cs := by
                        unfold attributedAt
                        rw [htake, hcurg]
                      refine ⟨?_, by rw [keys_dictAppendKey]; exact h2, ?_, ?_⟩
                      · rw [htake1]
                        have hcur : curSecAfter (g ++ [r]) = curSecAfter g := by
                          simp [curSecAfter, List.foldl_append, hopens]
                        rw [hcur, hcurg]
                      · intro cs' hcs'
                        have hcseq : cs = cs' := by injection hcs'
                        subst hcseq
                        obtain ⟨old, hold⟩ := h3 cs hcs
                        refine ⟨old ++ [⟨pyInt r.c0, fieldText r.c1, fieldText r.c2⟩], ?_⟩
                        rw [dictGet_dictAppendKey, if_pos rfl, hold]
                        rfl
                      · intro s' l hget
                        rw [dictGet_dictAppendKey] at hget
                        by_cases hs : s' = cs
                        · rw [if_pos hs] at hget
                          cases hdg : dictGet st.faq_data cs with
                          | none => rw [hdg] at hget; simp at hget
                          | some old =>
                              rw [hdg] at hget
                              have hl : old ++ [⟨pyInt r.c0, fieldText r.c1, fieldText r.c2⟩] = l :=
                                Option.some.inj hget
                              obtain ⟨idxs, hpair, hbound, hfa⟩ := h4 cs old hdg
                              refine ⟨idxs ++ [g.length], ?_, ?_, ?_⟩
                              · rw [List.pairwise_append]
                                refine ⟨hpair, by simp, ?_⟩
                                intro a ha b hb
                                have hb' : b = g.length := by simpa using hb
                                subst hb'
                                exact hbound a ha
                              · intro i hi
                                rcases List.mem_append.mp hi with h | h
                                · exact Nat.lt_succ_of_lt (hbound i h)
                                · have h' : i = g.length := by simpa using h
                                  subst h'
                                  exact Nat.lt_succ_self _
                              · rw [← hl]
                                subst hs
                                refine List.rel_append hfa
                                  (List.Forall₂.cons ?_ List.Forall₂.nil)
                                exact ⟨r, List.getElem?_concat_length g r,
                                  ⟨hh, hd, hq, rfl⟩, hattr_new⟩
                        · rw [if_neg hs] at hget
                          obtain ⟨idxs, hpair, hbound, hfa⟩ := h4 s' l hget
                          exact ⟨idxs, hpair,
                            fun i hi => Nat.lt_succ_of_lt (hbound i hi), hfa⟩

/-- A successful whole-grid scan satisfies the invariant at the end. -/
theorem runRows_stInv (g : List Row) :
    ∀ st', runRows ⟨[], none⟩ g = Except.ok st' → stInv g g.length st' := by
  induction g using List.reverseRecOn with
  | nil =>
      intro st' h
      injection h with he
      rw [← he]
      exact stInv_init []
  | append_singleton gs r ih =>
      intro st' h
      rw [runRows_append] at h
      cases hg : runRows ⟨[], none⟩ gs with
      | error e => rw [hg] at h; cases h
      | ok st1 =>
          rw [hg] at h
          have hp : procRow st1 r = Except.ok st' := by
            cases hpr : procRow st1 r with
            | ok st2 =>
                simp only [runRows, hpr] at h
                injection h with he
                rw [he]
            | error e =>
                simp only [runRows, hpr] at h
                cases h
          have hlift := stInv_append gs r st1 (ih st1 hg)
          have hstep := stInv_step gs r st1 st' hlift hp
          simpa using hstep

/-- A fold that produces a section name either inherited it from the
initial value or passed a section-opening row. -/
theorem foldSec_some (l : List Row) :
    ∀ (init : Option String) (s : String),
      l.foldl (fun cs r => if opensSec r then some (headerName r) else cs) init
        = some s →
      init = some s ∨
        ∃ (j : Nat) (rj : Row), l[j]? = some rj ∧ opensSec rj = true := by
  induction l with
  | nil => intro init s h; exact Or.inl h
  | cons r rest ih =>
      intro init s h
      rw [List.foldl_cons] at h
      rcases ih _ s h with hinit | ⟨j, rj, hget, hop⟩
      · cases hop : opensSec r with
        | true => exact Or.inr ⟨0, r, by simp, hop⟩
        | false =>
            rw [hop] at hinit
            simp at hinit
            exact Or.inl hinit
      · exact Or.inr ⟨j + 1, rj, by simpa using hget, hop⟩

/-- C3: in the main variant, every record list stored in a successful
extraction result is witnessed by a strictly increasing list of row
indices — each index holds a data row producing exactly that Record,
attributed (by the most recent section-opening header before it) to the
list's section — so records sit in the section whose header most recently
preceded them and keep their grid order; and any attributed index is
preceded by a section-opening header row, so no Record can appear before
any header. -/
theorem C3_attribution_order :
    (∀ (g : List Row) (m : FaqData), parse_faq_excel g = Except.ok m →
      ∀ s l, (s, l) ∈ m →
        ∃ idxs : List Nat, List.Pairwise (· < ·) idxs ∧
          List.Forall₂ (goodIdx g s) idxs l) ∧
    (∀ (g : List Row) (i : Nat) (s : String), attributedAt g i = some s →
      ∃ j, j < i ∧ ∃ rj, g[j]? = some rj ∧ opensSec rj = true) := by
  constructor
  · intro g m hok s l hmem
    have hrun : ∃ st1, runRows ⟨[], none⟩ g = Except.ok st1 ∧ st1.faq_data = m := by
      cases hg : runRows ⟨[], none⟩ g with
      | ok st1 =>
          refine ⟨st1, rfl, ?_⟩
          simp [parse_faq_excel, hg] at hok
          exact hok
      | error e => simp [parse_faq_excel, hg] at hok
    obtain ⟨st1, hg, hm⟩ := hrun
    obtain ⟨_, hnd, _, h4⟩ := runRows_stInv g st1 hg
    have hget : dictGet st1.faq_data s = some l :=
      dictGet_of_mem _ _ _ hnd (by rw [hm]; exact hmem)
    obtain ⟨idxs, hpair, _, hfa⟩ := h4 s l hget
    exact ⟨idxs, hpair, hfa⟩
  · intro g i s h
    unfold attributedAt curSecAfter at h
    rcases foldSec_some (g.take i) none s h with hinit | ⟨j, rj, hget, hop⟩
    · cases hinit
    · have hj : j < (g.take i).length := by
        by_contra hge
        rw [List.getElem?_eq_none (Nat.le_of_not_lt hge)] at hget
        cases hget
      have hji : j < i := by
        refine lt_of_lt_of_le hj ?_
        rw [List.length_take]
        exact min_le_left i g.length
      refine ⟨j, hji, rj, ?_, hop⟩
      rw [← hget, List.getElem?_take, if_pos hji]

/-- Concrete two-row grid for the C3 witness: one header, one data row. -/
def c3Grid : List Row :=
  [⟨Cell.blank, Cell.str "Coverage", Cell.str "Answer"⟩,
   ⟨Cell.num 1, Cell.str "Q", Cell.str "A"⟩]

/-- C3 witness: the theorem applied to a concrete grid and its concrete
extraction result. -/
theorem C3_attribution_order_witness :
    (∃ idxs : List Nat, List.Pairwise (· < ·) idxs ∧
        List.Forall₂ (goodIdx c3Grid "Benefit Coverage") idxs
          [⟨1, "Q", "A"⟩]) ∧
    (∃ j, j < 2 ∧ ∃ rj, c3Grid[j]? = some rj ∧ opensSec rj = true) :=
  ⟨C3_attribution_order.1 c3Grid [("Benefit Coverage", [⟨1, "Q", "A"⟩])] rfl
     "Benefit Coverage" [⟨1, "Q", "A"⟩] (by simp),
   C3_attribution_order.2 c3Grid 2 "Benefit Coverage" rfl⟩
